import Mathlib

/-!
Shallow embedding of the synchronization core of the quantum-trading-bot
dashboard: the Zustand dashboard store (alerts, trades, performance,
derived selectors) as embedded in `src/PRODUCTION_DEPLOYMENT_GUIDE.md`,
and the `useWebSocket` hook
(`src/dashboard/frontend/src/hooks/useWebSocket.js`): reconnect backoff,
outbound message queue, disconnect, and the inbound message handler.

State is passed explicitly; transport and UI side effects (socket sends,
`close` calls, toast notifications) are recorded as transcripts on the
state so that theorems can speak about them.
-/

namespace QuantumDashboard

/-- An alert record held in the dashboard store's `alerts` list.  Only the
fields inspected by the store's actions are modelled: `id` (compared by
`markAlertRead`) and `read`. -/
structure Alert where
  id : Nat
  read : Bool
  deriving DecidableEq

/-- The slice of the dashboard store touched by the alert actions:
the `alerts` list and the `unreadAlerts` counter. -/
structure AlertsState where
  alerts : List Alert
  unreadAlerts : Int
  deriving DecidableEq

/-- Initial store state: `alerts: []`, `unreadAlerts: 0`. -/
def initialAlertsState : AlertsState := { alerts := [], unreadAlerts := 0 }

/-- `addAlert` action: `alerts: [alert, ...state.alerts.slice(0, 99)]`
(keep at most 100 alerts), `unreadAlerts: state.unreadAlerts + 1`. -/
def addAlert (alert : Alert) (s : AlertsState) : AlertsState :=
  { alerts := alert :: s.alerts.take 99
    unreadAlerts := s.unreadAlerts + 1 }

/-- `markAlertRead` action: map over the alerts, setting `read: true` on
every alert whose `id` equals `alertId`; the counter becomes
`Math.max(0, state.unreadAlerts - 1)`. -/
def markAlertRead (alertId : Nat) (s : AlertsState) : AlertsState :=
  { alerts := s.alerts.map fun a => if a.id = alertId then { a with read := true } else a
    unreadAlerts := max 0 (s.unreadAlerts - 1) }

/-- `clearAllAlerts` action: `alerts: []`, `unreadAlerts: 0`. -/
def clearAllAlerts (_s : AlertsState) : AlertsState :=
  { alerts := [], unreadAlerts := 0 }

/-- One alert-store operation. -/
inductive AlertOp where
  | add (alert : Alert)
  | markRead (alertId : Nat)
  | clearAll
  deriving DecidableEq

/-- Apply one alert operation to the store. -/
def applyAlertOp (s : AlertsState) : AlertOp → AlertsState
  | .add a => addAlert a s
  | .markRead i => markAlertRead i s
  | .clearAll => clearAllAlerts s

/-- Run a sequence of alert operations, left to right. -/
def runAlertOps (s : AlertsState) : List AlertOp → AlertsState
  | [] => s
  | op :: ops => runAlertOps (applyAlertOp s op) ops

/-- Number of alerts in the list whose `read` field is false. -/
def countUnread (s : AlertsState) : Nat :=
  (s.alerts.filter fun a => !a.read).length

/-- The spec's alert invariant: the `unreadAlerts` counter equals the
number of unread alerts in the list. -/
def alertInvariant (s : AlertsState) : Prop :=
  s.unreadAlerts = (countUnread s : Int)

theorem applyAlertOp_unread_nonneg (s : AlertsState) (op : AlertOp)
    (h : 0 ≤ s.unreadAlerts) : 0 ≤ (applyAlertOp s op).unreadAlerts := by
  cases op with
  | add a => simpa [applyAlertOp, addAlert] using by omega
  | markRead i => exact le_max_left 0 _
  | clearAll => exact le_refl 0

theorem runAlertOps_unread_nonneg (ops : List AlertOp) (s : AlertsState)
    (h : 0 ≤ s.unreadAlerts) : 0 ≤ (runAlertOps s ops).unreadAlerts := by
  induction ops generalizing s with
  | nil => exact h
  | cons op ops ih => exact ih _ (applyAlertOp_unread_nonneg s op h)

/-- C10: starting from the initial store state, after every sequence of
`addAlert`, `markAlertRead` and `clearAllAlerts` operations the
`unreadAlerts` counter is non-negative. -/
theorem unreadAlerts_nonneg (ops : List AlertOp) :
    0 ≤ (runAlertOps initialAlertsState ops).unreadAlerts :=
  runAlertOps_unread_nonneg ops initialAlertsState (le_refl 0)

/-- A trade history: `addTrade` prepends the new trade and keeps at most
the first 999 old entries: `trades: [trade, ...state.trades.slice(0, 999)]`. -/
def addTrade (trade : Nat) (trades : List Nat) : List Nat :=
  trade :: trades.take 999

/-- Run a sequence of `addTrade` operations, left to right. -/
def runTrades (trades : List Nat) : List Nat → List Nat
  | [] => trades
  | t :: ts => runTrades (addTrade t trades) ts

theorem addTrade_length (t : Nat) (l : List Nat) :
    (addTrade t l).length = min (l.length + 1) 1000 := by
  simp [addTrade, List.length_take]
  omega

theorem runTrades_length_le (ts : List Nat) (l : List Nat)
    (h : l.length ≤ 1000) : (runTrades l ts).length ≤ 1000 := by
  induction ts generalizing l with
  | nil => exact h
  | cons t ts ih =>
    refine ih (addTrade t l) ?_
    rw [addTrade_length]
    omega

/-- C3: `addTrade` inserts the new trade at the head, the remainder of the
result is an initial segment of the old list (newest-first order is
preserved), the length is `min (old length + 1) 1000`, a full list of
1000 entries loses exactly its last entry, and no sequence of `addTrade`
operations from the empty history ever exceeds 1000 entries. -/
theorem addTrade_spec (t : Nat) (l : List Nat) (ts : List Nat) :
    (addTrade t l).head? = some t
    ∧ (∃ suffix : List Nat, (addTrade t l).tail ++ suffix = l)
    ∧ (addTrade t l).length = min (l.length + 1) 1000
    ∧ (l.length = 1000 → addTrade t l = t :: l.dropLast)
    ∧ (runTrades [] ts).length ≤ 1000 := by
  refine ⟨rfl, ⟨l.drop 999, by simp [addTrade]⟩, addTrade_length t l, ?_, ?_⟩
  · intro hlen
    simp [addTrade, List.dropLast_eq_take, hlen]
  · exact runTrades_length_le ts [] (by simp)

/-- Witness for C3 at a full history of 1000 trades: the 1001st trade is
prepended and exactly the tail entry is evicted. -/
theorem addTrade_spec_witness :
    (addTrade 7 (List.replicate 1000 0)).head? = some 7
    ∧ addTrade 7 (List.replicate 1000 0) = 7 :: (List.replicate 1000 0).dropLast
    ∧ (addTrade 7 (List.replicate 1000 0)).length = 1000 := by
  have hlen : (List.replicate 1000 (0 : Nat)).length = 1000 := List.length_replicate 1000 0
  refine ⟨(addTrade_spec 7 (List.replicate 1000 0) []).1, ?_, ?_⟩
  · exact (addTrade_spec 7 (List.replicate 1000 0) []).2.2.2.1 hlen
  · rw [(addTrade_spec 7 (List.replicate 1000 0) []).2.2.1, hlen]
    omega

/-- The performance fields read by the `getRiskLevel` selector. -/
structure Performance where
  margin_level : Int
  current_drawdown : Int
  deriving DecidableEq

/-- `getRiskLevel` selector: `'high'` if `margin_level < 150` or
`current_drawdown > 15`; else `'medium'` if `margin_level < 300` or
`current_drawdown > 10`; else `'low'`. -/
def getRiskLevel (p : Performance) : String :=
  if p.margin_level < 150 ∨ p.current_drawdown > 15 then "high"
  else if p.margin_level < 300 ∨ p.current_drawdown > 10 then "medium"
  else "low"

/-- C8: characterisation of the risk level selector: it returns `"high"`
exactly when `margin_level < 150` or `current_drawdown > 15`, `"medium"`
exactly when neither holds but `margin_level < 300` or
`current_drawdown > 10`, and `"low"` otherwise. -/
theorem getRiskLevel_spec (p : Performance) :
    (getRiskLevel p = "high" ↔ (p.margin_level < 150 ∨ p.current_drawdown > 15))
    ∧ (getRiskLevel p = "medium" ↔
        (¬(p.margin_level < 150 ∨ p.current_drawdown > 15)
          ∧ (p.margin_level < 300 ∨ p.current_drawdown > 10)))
    ∧ (getRiskLevel p = "low" ↔
        (¬(p.margin_level < 150 ∨ p.current_drawdown > 15)
          ∧ ¬(p.margin_level < 300 ∨ p.current_drawdown > 10))) := by
  unfold getRiskLevel
  split_ifs with h1 h2 <;> refine ⟨?_, ?_, ?_⟩ <;> simp_all

/-- Side conditions under which one alert operation keeps the unread
counter in sync with the list: an ingested alert is unread and the list is
below its 100-entry capacity (no eviction); a `markRead` targets an id
borne by exactly one unread alert currently in the list. -/
def okAlertOp (s : AlertsState) : AlertOp → Bool
  | .add a => !a.read && decide (s.alerts.length < 100)
  | .markRead i => (s.alerts.filter fun a => a.id == i && !a.read).length == 1
  | .clearAll => true

/-- `okAlertOp` holding at every step of a run. -/
def okAlertRun (s : AlertsState) : List AlertOp → Bool
  | [] => true
  | op :: ops => okAlertOp s op && okAlertRun (applyAlertOp s op) ops

instance (s : AlertsState) : Decidable (alertInvariant s) :=
  inferInstanceAs (Decidable (s.unreadAlerts = (countUnread s : Int)))

theorem markRead_filter_count_zero (l : List Alert) (i : Nat)
    (h : ∀ a ∈ l, a.id = i → a.read = true) :
    ((l.map fun a => if a.id = i then { a with read := true } else a).filter
        fun a => !a.read).length
      = (l.filter fun a => !a.read).length := by
  induction l with
  | nil => rfl
  | cons a l ih =>
    have ha := h a (List.mem_cons_self a l)
    have hl : ∀ b ∈ l, b.id = i → b.read = true :=
      fun b hb => h b (List.mem_cons_of_mem a hb)
    obtain ⟨aid, aread⟩ := a
    by_cases hid : aid = i
    · have haread : aread = true := ha hid
      subst haread
      simp [hid, List.filter_cons, ih hl]
    · cases aread <;> simp [hid, List.filter_cons, ih hl]

theorem markRead_filter_count_one (l : List Alert) (i : Nat)
    (h : (l.filter fun a => a.id == i && !a.read).length = 1) :
    ((l.map fun a => if a.id = i then { a with read := true } else a).filter
        fun a => !a.read).length + 1
      = (l.filter fun a => !a.read).length := by
  induction l with
  | nil => simp at h
  | cons a l ih =>
    obtain ⟨aid, aread⟩ := a
    by_cases hid : aid = i
    · cases aread with
      | false =>
        simp only [List.filter_cons, hid] at h ⊢
        simp at h ⊢
        exact markRead_filter_count_zero l i h
      | true => simp_all [List.filter_cons]
    · cases aread <;> simp_all [List.filter_cons]

theorem markRead_unread_pos (l : List Alert) (i : Nat)
    (h : (l.filter fun a => a.id == i && !a.read).length = 1) :
    0 < (l.filter fun a => !a.read).length := by
  have hne : (l.filter fun a => a.id == i && !a.read) ≠ [] := by
    intro hnil
    rw [hnil] at h
    simp at h
  obtain ⟨a, ha⟩ := List.exists_mem_of_ne_nil _ hne
  have hmem := List.mem_filter.mp ha
  have ha2 : a ∈ l.filter fun a => !a.read := by
    refine List.mem_filter.mpr ⟨hmem.1, ?_⟩
    have := hmem.2
    simp only [Bool.and_eq_true] at this
    exact this.2
  exact List.length_pos.mpr fun hn => by simp [hn] at ha2

theorem applyAlertOp_invariant (s : AlertsState) (op : AlertOp)
    (hs : alertInvariant s) (hop : okAlertOp s op = true) :
    alertInvariant (applyAlertOp s op) := by
  cases op with
  | add a =>
    simp only [okAlertOp, Bool.and_eq_true, Bool.not_eq_true',
      decide_eq_true_eq] at hop
    obtain ⟨hread, hlen⟩ := hop
    have htake : s.alerts.take 99 = s.alerts := List.take_of_length_le (by omega)
    unfold alertInvariant countUnread at hs ⊢
    simp only [applyAlertOp, addAlert, htake, List.filter_cons, hread,
      Bool.not_false, if_pos, List.length_cons]
    push_cast
    omega
  | markRead i =>
    simp only [okAlertOp, beq_iff_eq] at hop
    have hcount := markRead_filter_count_one s.alerts i hop
    have hpos := markRead_unread_pos s.alerts i hop
    unfold alertInvariant countUnread at hs ⊢
    simp only [applyAlertOp, markAlertRead]
    omega
  | clearAll =>
    simp [applyAlertOp, clearAllAlerts, alertInvariant, countUnread]

theorem runAlertOps_invariant (ops : List AlertOp) (s : AlertsState)
    (hs : alertInvariant s) (hok : okAlertRun s ops = true) :
    alertInvariant (runAlertOps s ops) := by
  induction ops generalizing s with
  | nil => exact hs
  | cons op ops ih =>
    rw [okAlertRun, Bool.and_eq_true] at hok
    exact ih _ (applyAlertOp_invariant s op hs hok.1) hok.2

theorem okAlertRun_append_left (p t : List AlertOp) (s : AlertsState)
    (h : okAlertRun s (p ++ t) = true) : okAlertRun s p = true := by
  induction p generalizing s with
  | nil => rfl
  | cons op p ih =>
    rw [List.cons_append, okAlertRun, Bool.and_eq_true] at h
    rw [okAlertRun, Bool.and_eq_true]
    exact ⟨h.1, ih _ h.2⟩

/-- C1 counterexample: after ingesting one unread alert and then calling
`markAlertRead` with an id that matches no alert, the counter is 0 while
one unread alert remains, so `unreadAlerts` differs from the number of
unread alerts. -/
theorem unread_invariant_counterexample :
    ¬ alertInvariant (runAlertOps initialAlertsState
      [AlertOp.add ⟨1, false⟩, AlertOp.markRead 2]) := by
  decide

/-- C1 (amended): the unread-counter invariant holds after each operation
of a sequence provided every `addAlert` ingests an unread alert while the
list is below its 100-entry capacity, and every `markAlertRead` targets an
id borne by exactly one unread alert currently in the list
(`markAlertRead` with an absent or already-read id decrements the counter
without changing the unread count, and eviction of an unread alert at
capacity leaves the counter too high). -/
theorem unread_invariant_amended (ops p t : List AlertOp)
    (hsplit : p ++ t = ops)
    (hok : okAlertRun initialAlertsState ops = true) :
    alertInvariant (runAlertOps initialAlertsState p) := by
  subst hsplit
  exact runAlertOps_invariant p _ (by decide) (okAlertRun_append_left p t _ hok)

/-- Witness for C1 (amended) on a concrete well-formed run: ingest two
unread alerts, mark the second one read; the invariant holds after the
third operation of the four-operation run. -/
theorem unread_invariant_amended_witness :
    okAlertRun initialAlertsState
      [AlertOp.add ⟨1, false⟩, AlertOp.add ⟨2, false⟩,
        AlertOp.markRead 1, AlertOp.clearAll] = true
    ∧ alertInvariant (runAlertOps initialAlertsState
      [AlertOp.add ⟨1, false⟩, AlertOp.add ⟨2, false⟩, AlertOp.markRead 1]) :=
  ⟨by decide,
    unread_invariant_amended
      [AlertOp.add ⟨1, false⟩, AlertOp.add ⟨2, false⟩,
        AlertOp.markRead 1, AlertOp.clearAll]
      [AlertOp.add ⟨1, false⟩, AlertOp.add ⟨2, false⟩, AlertOp.markRead 1]
      [AlertOp.clearAll] rfl (by decide)⟩

/-- C6 counterexample: on the store state with two unread alerts and
`unreadAlerts = 2`, applying `markAlertRead 1` twice gives a different
state (counter 0) than applying it once (counter 1). -/
theorem markAlertRead_not_idempotent :
    markAlertRead 1 (markAlertRead 1 ⟨[⟨1, false⟩, ⟨2, false⟩], 2⟩)
      ≠ markAlertRead 1 ⟨[⟨1, false⟩, ⟨2, false⟩], 2⟩ := by
  decide

/-- C6 (amended): the alerts-list component of `markAlertRead` is
idempotent, but the whole store state is unchanged by a second application
exactly when `unreadAlerts ≤ 1` before the first one; otherwise the second
application decrements the counter again (floored at 0). -/
theorem markAlertRead_idempotent_amended (s : AlertsState) (i : Nat) :
    (markAlertRead i (markAlertRead i s)).alerts = (markAlertRead i s).alerts
    ∧ (markAlertRead i (markAlertRead i s) = markAlertRead i s
        ↔ s.unreadAlerts ≤ 1) := by
  obtain ⟨l, u⟩ := s
  have hmap : ∀ m : List Alert,
      (m.map fun a => if a.id = i then { a with read := true } else a).map
        (fun a => if a.id = i then { a with read := true } else a)
      = m.map fun a => if a.id = i then { a with read := true } else a := by
    intro m
    induction m with
    | nil => rfl
    | cons a m ih => by_cases h : a.id = i <;> simp [h, ih]
  refine ⟨by simp [markAlertRead, hmap], ?_⟩
  constructor
  · intro h
    have hcnt := congrArg AlertsState.unreadAlerts h
    dsimp only [markAlertRead] at hcnt
    dsimp only
    omega
  · intro h
    dsimp only at h
    dsimp only [markAlertRead]
    simp only [AlertsState.mk.injEq]
    exact ⟨hmap l, by omega⟩

/-- The `reconnectCount` React state of the `useWebSocket` hook. -/
structure ConnState where
  reconnectCount : Nat
  deriving DecidableEq

/-- Hook state at mount: `useState(0)`. -/
def initialConnState : ConnState := { reconnectCount := 0 }

/-- The `onclose` handler's reconnection scheduling: for a close code
other than 1000 and 1001 it schedules a reconnection after
`Math.min(1000 * Math.pow(2, reconnectCount), 30000)` milliseconds and
returns that delay; for a normal closure (1000 or 1001) it schedules
nothing. -/
def scheduleReconnect (code : Nat) (s : ConnState) : Option Nat :=
  if code ≠ 1000 ∧ code ≠ 1001 then
    some (min (1000 * 2 ^ s.reconnectCount) 30000)
  else none

/-- The `setTimeout` callback of the `onclose` handler:
`setReconnectCount(prev => prev + 1)` and then `connect()`. -/
def reconnectTimerFire (s : ConnState) : ConnState :=
  { reconnectCount := s.reconnectCount + 1 }

/-- The `onopen` handler's effect on the counter: `setReconnectCount(0)`. -/
def handleOpen (_s : ConnState) : ConnState := { reconnectCount := 0 }

/-- Counter state after `n` abnormal closures, each followed by its
reconnection timer firing. -/
def timerIter : Nat → ConnState → ConnState
  | 0, s => s
  | n + 1, s => timerIter n (reconnectTimerFire s)

theorem timerIter_count (n : Nat) (s : ConnState) :
    (timerIter n s).reconnectCount = s.reconnectCount + n := by
  induction n generalizing s with
  | zero => rfl
  | succ n ih =>
    rw [timerIter, ih]
    simp [reconnectTimerFire]
    omega

/-- C2: for consecutive abnormal closures (close code neither 1000 nor
1001) starting from the initial counter, the Nth scheduled reconnection
delay is `min (1000 * 2 ^ N) 30000` milliseconds (N starting at 0), and
after a successful open the counter is reset to 0, so the next abnormal
closure's delay is computed with N = 0. -/
theorem reconnect_backoff (code N : Nat) (s : ConnState)
    (h1000 : code ≠ 1000) (h1001 : code ≠ 1001) :
    scheduleReconnect code (timerIter N initialConnState)
      = some (min (1000 * 2 ^ N) 30000)
    ∧ (handleOpen s).reconnectCount = 0
    ∧ scheduleReconnect code (handleOpen s) = some (min (1000 * 2 ^ 0) 30000) := by
  refine ⟨?_, rfl, ?_⟩
  · rw [scheduleReconnect, if_pos ⟨h1000, h1001⟩, timerIter_count]
    simp [initialConnState]
  · rw [scheduleReconnect, if_pos ⟨h1000, h1001⟩]
    simp [handleOpen]

/-- Witness for C2 at close code 1006: the 6th delay saturates at the
30000 ms cap, and after an open the next abnormal closure's delay is
1000 ms. -/
theorem reconnect_backoff_witness :
    scheduleReconnect 1006 (timerIter 6 initialConnState) = some 30000
    ∧ scheduleReconnect 1006 (handleOpen { reconnectCount := 5 }) = some 1000 := by
  have h := reconnect_backoff 1006 6 { reconnectCount := 5 } (by decide) (by decide)
  exact ⟨h.1.trans (by decide), h.2.2.trans (by decide)⟩

/-- The pieces of the `useWebSocket` hook touched by `sendMessage` and the
`onopen` queue drain: whether the socket is open
(`wsRef.current?.readyState === WebSocket.OPEN`), the
`messageQueueRef.current` queue, and a transcript of the messages handed
to `wsRef.current.send`. -/
structure WsHook where
  isOpen : Bool
  messageQueue : List Nat
  sent : List Nat
  deriving DecidableEq

/-- `sendMessage`: transmit immediately when the connection is open,
otherwise push the message onto the queue (no error, nothing dropped). -/
def sendMessage (m : Nat) (w : WsHook) : WsHook :=
  if w.isOpen then { w with sent := w.sent ++ [m] }
  else { w with messageQueue := w.messageQueue ++ [m] }

/-- The `onopen` drain loop: `while (queue.length > 0) { send(shift()) }`. -/
def drainQueue : List Nat → WsHook → WsHook
  | [], w => w
  | m :: rest, w => drainQueue rest { w with sent := w.sent ++ [m] }

/-- The `onopen` handler's queue handling: the socket is now open and the
queued messages are sent in order, emptying the queue. -/
def handleWsOpen (w : WsHook) : WsHook :=
  drainQueue w.messageQueue { w with isOpen := true, messageQueue := [] }

/-- Submit a list of messages through `sendMessage`, left to right. -/
def sendAll (ms : List Nat) (w : WsHook) : WsHook :=
  ms.foldl (fun acc m => sendMessage m acc) w

theorem sendAll_closed (ms : List Nat) (w : WsHook) (h : w.isOpen = false) :
    sendAll ms w
      = { isOpen := false, messageQueue := w.messageQueue ++ ms, sent := w.sent } := by
  induction ms generalizing w with
  | nil =>
    obtain ⟨o, q, t⟩ := w
    cases h
    simp [sendAll]
  | cons m ms ih =>
    rw [sendAll, List.foldl_cons]
    rw [show List.foldl (fun acc m => sendMessage m acc) (sendMessage m w) ms
        = sendAll ms (sendMessage m w) from rfl]
    rw [ih (sendMessage m w) (by simp [sendMessage, h])]
    simp [sendMessage, h]

theorem drainQueue_sent (q : List Nat) (w : WsHook) :
    drainQueue q w = { w with sent := w.sent ++ q } := by
  induction q generalizing w with
  | nil => simp [drainQueue]
  | cons m rest ih => simp [drainQueue, ih]

/-- C5: messages submitted through `sendMessage` while the connection is
not open are all appended to the queue in submission order with the
transcript of transmitted messages unchanged (nothing is dropped, no
error), and on the next successful open the queued messages are
transmitted in exactly submission order, after which the queue is empty. -/
theorem outbound_fifo (ms : List Nat) (w : WsHook) (h : w.isOpen = false) :
    (sendAll ms w).messageQueue = w.messageQueue ++ ms
    ∧ (sendAll ms w).sent = w.sent
    ∧ (handleWsOpen (sendAll ms w)).sent = w.sent ++ w.messageQueue ++ ms
    ∧ (handleWsOpen (sendAll ms w)).messageQueue = [] := by
  rw [sendAll_closed ms w h]
  refine ⟨rfl, rfl, ?_, ?_⟩ <;>
    simp [handleWsOpen, drainQueue_sent]

/-- Witness for C5: messages 1, 2, 3 sent while disconnected are queued
in order and transmitted as 1, 2, 3 on open. -/
theorem outbound_fifo_witness :
    (sendAll [1, 2, 3] { isOpen := false, messageQueue := [], sent := [] }).messageQueue
      = [1, 2, 3]
    ∧ (handleWsOpen (sendAll [1, 2, 3]
        { isOpen := false, messageQueue := [], sent := [] })).sent = [1, 2, 3] := by
  have h := outbound_fifo [1, 2, 3] { isOpen := false, messageQueue := [], sent := [] } rfl
  exact ⟨h.1, h.2.2.1⟩

/-- The refs and state of the `useWebSocket` hook touched by
`disconnect()`: whether `wsRef.current` is non-null, whether a
reconnection timer (`reconnectTimeoutRef`) or heartbeat timer is pending,
the `isConnected` flag, and a transcript of the close codes passed to the
transport's `close`. -/
structure HookState where
  ws : Bool
  reconnectTimer : Bool
  heartbeatTimer : Bool
  isConnected : Bool
  closes : List Nat
  deriving DecidableEq

/-- `disconnect()`: clear any pending reconnection timer and heartbeat
timer, close the transport with normal-closure code 1000 when a socket
exists (nulling the ref), and mark the connection as down. -/
def disconnect (s : HookState) : HookState :=
  if s.ws then
    { ws := false, reconnectTimer := false, heartbeatTimer := false,
      isConnected := false, closes := s.closes ++ [1000] }
  else
    { ws := false, reconnectTimer := false, heartbeatTimer := false,
      isConnected := false, closes := s.closes }

/-- C7: `disconnect()` is idempotent: a second call leaves the state
unchanged, in particular it issues no second transport close; after any
`disconnect()` no reconnection timer is pending and none is scheduled,
and the close it performs uses normal code 1000, for which the `onclose`
handler schedules no reconnection. -/
theorem disconnect_idempotent (s : HookState) (c : ConnState) :
    disconnect (disconnect s) = disconnect s
    ∧ (disconnect s).reconnectTimer = false
    ∧ (disconnect (disconnect s)).closes = (disconnect s).closes
    ∧ scheduleReconnect 1000 c = none := by
  refine ⟨?_, ?_, ?_, rfl⟩ <;> by_cases h : s.ws <;> simp [disconnect, h]

/-- A JavaScript object with numeric fields, as an ordered association
list of key/value pairs (lookup returns the first occurrence). -/
abbrev JsObject := List (String × Int)

/-- Override one `base` entry with the value `upd` holds for its key, if
any. -/
def overrideWith (upd : JsObject) (p : String × Int) : String × Int :=
  match upd.lookup p.1 with
  | some v => (p.1, v)
  | none => p

/-- JavaScript object spread `{ ...base, ...upd }`: keys of `base` keep
their position with values overridden by `upd` where present; keys of
`upd` absent from `base` are appended. -/
def spreadMerge (base upd : JsObject) : JsObject :=
  base.map (overrideWith upd) ++ upd.filter fun q => (base.lookup q.1).isNone

/-- The store slice touched by `updatePerformance` and by
`handleDashboardUpdate`'s performance merge. -/
structure PerfStore where
  performance : JsObject
  lastUpdate : Option Nat
  deriving DecidableEq

/-- `updatePerformance` action:
`performance: { ...state.performance, ...performance }`. -/
def updatePerformance (upd : JsObject) (s : PerfStore) : PerfStore :=
  { s with performance := spreadMerge s.performance upd }

/-- The payload fields of a `dashboard_update` message modelled here: the
(possibly partial) `performance` object and the timestamp. -/
structure DashboardUpdate where
  performance : JsObject
  timestamp : Option Nat
  deriving DecidableEq

/-- `handleDashboardUpdate` action:
`performance: { ...state.performance, ...data.performance }`,
`lastUpdate: data.timestamp`. -/
def handleDashboardUpdate (data : DashboardUpdate) (s : PerfStore) : PerfStore :=
  { performance := spreadMerge s.performance data.performance
    lastUpdate := data.timestamp }

theorem lookup_cons_self (a : String) (b : Int) (t : JsObject) :
    List.lookup a ((a, b) :: t) = some b := by
  simp [List.lookup]

theorem lookup_cons_ne (k a : String) (b : Int) (t : JsObject)
    (h : (k == a) = false) : List.lookup k ((a, b) :: t) = List.lookup k t := by
  simp [List.lookup, h]

theorem overrideWith_fst (upd : JsObject) (p : String × Int) :
    (overrideWith upd p).1 = p.1 := by
  unfold overrideWith
  cases upd.lookup p.1 <;> rfl

theorem lookup_filter_of_key (upd : JsObject) (k : String)
    (p : String × Int → Bool) (hp : ∀ e : String × Int, e.1 = k → p e = true) :
    (upd.filter p).lookup k = upd.lookup k := by
  induction upd with
  | nil => rfl
  | cons e t ih =>
    obtain ⟨a, b⟩ := e
    by_cases hk : a = k
    · subst hk
      have hpe : p (a, b) = true := hp (a, b) rfl
      rw [List.filter_cons, if_pos hpe, lookup_cons_self, lookup_cons_self]
    · have hne : (k == a) = false := by
        simp only [beq_eq_false_iff_ne, ne_eq]
        exact fun h => hk h.symm
      by_cases hpe : p (a, b) = true
      · rw [List.filter_cons, if_pos hpe, lookup_cons_ne k a b _ hne,
          lookup_cons_ne k a b t hne]
        exact ih
      · rw [List.filter_cons, if_neg hpe, lookup_cons_ne k a b t hne]
        exact ih

theorem spreadMerge_lookup_aux (base upd : JsObject) (k : String)
    (P : String × Int → Bool)
    (hP : ∀ e : String × Int, e.1 = k → P e = (base.lookup k).isNone) :
    (base.map (overrideWith upd) ++ upd.filter P).lookup k
      = (upd.lookup k).or (base.lookup k) := by
  induction base with
  | nil =>
    have hp : ∀ e : String × Int, e.1 = k → P e = true := by
      intro e he
      simpa [List.lookup] using hP e he
    simp [List.lookup, lookup_filter_of_key upd k P hp]
  | cons e rest ih =>
    obtain ⟨a, w⟩ := e
    by_cases hk : k = a
    · subst hk
      rw [List.map_cons, List.cons_append]
      cases hud : upd.lookup k with
      | none =>
        have hov : overrideWith upd (k, w) = (k, w) := by
          unfold overrideWith
          rw [hud]
        rw [hov, lookup_cons_self, lookup_cons_self]
        rfl
      | some v =>
        have hov : overrideWith upd (k, w) = (k, v) := by
          unfold overrideWith
          rw [hud]
        rw [hov, lookup_cons_self, lookup_cons_self]
        rfl
    · have hne : (k == a) = false := by
        simp only [beq_eq_false_iff_ne, ne_eq]
        exact hk
      have hrest : ((a, w) :: rest).lookup k = rest.lookup k :=
        lookup_cons_ne k a w rest hne
      rw [hrest] at hP
      rcases hov : overrideWith upd (a, w) with ⟨a1, b1⟩
      have ha1 : a1 = a := by
        have hfst := overrideWith_fst upd (a, w)
        rw [hov] at hfst
        exact hfst
      subst ha1
      rw [List.map_cons, List.cons_append, hov, lookup_cons_ne k a1 b1 _ hne,
        hrest]
      exact ih hP

theorem spreadMerge_lookup (base upd : JsObject) (k : String) :
    (spreadMerge base upd).lookup k = (upd.lookup k).or (base.lookup k) := by
  unfold spreadMerge
  exact spreadMerge_lookup_aux base upd k
    (fun q => (base.lookup q.1).isNone) (fun e he => by simp only [he])

/-- C4: after `updatePerformance` or a bulk `handleDashboardUpdate`, a
performance field present in the incoming update carries the update's
value and a field absent from the update retains its prior value; in
particular merging `{b:5}` into `{a:1, b:2}` yields `{a:1, b:5}`. -/
theorem partial_merge_spec (s : PerfStore) (upd : JsObject)
    (d : DashboardUpdate) (k : String) :
    ((updatePerformance upd s).performance.lookup k
      = (upd.lookup k).or (s.performance.lookup k))
    ∧ ((handleDashboardUpdate d s).performance.lookup k
      = (d.performance.lookup k).or (s.performance.lookup k))
    ∧ spreadMerge [("a", 1), ("b", 2)] [("b", 5)] = [("a", 1), ("b", 5)] :=
  ⟨spreadMerge_lookup s.performance upd k,
    spreadMerge_lookup s.performance d.performance k,
    by decide⟩

/-- A parsed inbound wire message: the `type` discriminator together with
the payload fields the `onmessage` handler reads. -/
structure RawMessage where
  type : String
  alertData : Alert
  perfData : JsObject
  timestamp : Option Nat
  message : String
  symbol : String
  side : String
  deriving DecidableEq

/-- The hook/store state visible to the `onmessage` handler: the
connection state (`isConnected` flag and reconnect counter), the alert
store slice, the performance store slice, the `lastMessage` hook state,
and a transcript of the toast notifications shown. -/
structure DashState where
  isConnected : Bool
  connState : ConnState
  alertsState : AlertsState
  perfStore : PerfStore
  lastMessage : Option RawMessage
  toasts : List String
  deriving DecidableEq

/-- The `type` values the `onmessage` switch dispatches on. -/
def knownMessageTypes : List String :=
  ["dashboard_update", "alert", "position_update", "trade_executed", "pong",
    "error"]

/-- The `switch (data.type)` dispatch of the `onmessage` handler:
`dashboard_update` merges into the store, `alert` ingests the alert and
shows a toast, `position_update` and `pong` do nothing, `trade_executed`
and `error` show toasts, and the `default` branch only logs the unhandled
type. -/
def routeMessage (m : RawMessage) (st : DashState) : DashState :=
  if m.type = "dashboard_update" then
    { st with perfStore := handleDashboardUpdate ⟨m.perfData, m.timestamp⟩ st.perfStore }
  else if m.type = "alert" then
    { st with alertsState := addAlert m.alertData st.alertsState
              toasts := st.toasts ++ [m.message] }
  else if m.type = "position_update" then st
  else if m.type = "trade_executed" then
    { st with toasts := st.toasts ++ ["Trade executed: " ++ m.symbol ++ " " ++ m.side] }
  else if m.type = "pong" then st
  else if m.type = "error" then
    { st with toasts := st.toasts ++ ["Error: " ++ m.message] }
  else st

/-- An inbound frame: either a payload on which `JSON.parse` fails, or a
well-formed message. -/
inductive Frame where
  | malformed
  | wellFormed (m : RawMessage)
  deriving DecidableEq

/-- `JSON.parse` of the frame's payload: fails exactly on malformed
frames. -/
def parseFrame : Frame → Option RawMessage
  | .malformed => none
  | .wellFormed m => some m

/-- The `onmessage` handler: parse the payload inside a try/catch; on
parse failure log and discard (state unchanged); on success record the
message via `setLastMessage` and dispatch on its `type`.  The handler is
a total state function: no frame makes it throw. -/
def onMessage (f : Frame) (st : DashState) : DashState :=
  match parseFrame f with
  | none => st
  | some m => routeMessage m { st with lastMessage := some m }

/-- C9: the message handler never throws (it is a total state function);
a frame that fails to parse is logged and discarded with the entire state
unchanged; a parsed message whose `type` is not among the known types is
not routed to any handler (only the `lastMessage` hook state records it);
and for every frame the connection state (`isConnected` and the
reconnect counter) is unchanged. -/
theorem message_handler_safe (st : DashState) :
    onMessage .malformed st = st
    ∧ (∀ m : RawMessage, m.type ∉ knownMessageTypes →
        onMessage (.wellFormed m) st = { st with lastMessage := some m })
    ∧ (∀ f : Frame, (onMessage f st).isConnected = st.isConnected
        ∧ (onMessage f st).connState = st.connState) := by
  refine ⟨rfl, ?_, ?_⟩
  · intro m hm
    simp only [knownMessageTypes, List.mem_cons, List.not_mem_nil, or_false,
      not_or] at hm
    obtain ⟨h1, h2, h3, h4, h5, h6⟩ := hm
    simp [onMessage, parseFrame, routeMessage, h1, h2, h3, h4, h5, h6]
  · intro f
    cases f with
    | malformed => exact ⟨rfl, rfl⟩
    | wellFormed m =>
      simp only [onMessage, parseFrame, routeMessage]
      split_ifs <;> simp

/-- Witness for C9: a frame whose parsed `type` is the unknown string
"bogus" changes nothing but `lastMessage`, and a malformed frame changes
nothing at all. -/
theorem message_handler_safe_witness :
    onMessage
        (.wellFormed ⟨"bogus", ⟨1, false⟩, [], none, "hi", "ETHUSDT", "buy"⟩)
        ⟨false, ⟨0⟩, ⟨[], 0⟩, ⟨[("a", 1)], none⟩, none, []⟩
      = ⟨false, ⟨0⟩, ⟨[], 0⟩, ⟨[("a", 1)], none⟩,
          some ⟨"bogus", ⟨1, false⟩, [], none, "hi", "ETHUSDT", "buy"⟩, []⟩
    ∧ onMessage .malformed ⟨false, ⟨0⟩, ⟨[], 0⟩, ⟨[("a", 1)], none⟩, none, []⟩
      = ⟨false, ⟨0⟩, ⟨[], 0⟩, ⟨[("a", 1)], none⟩, none, []⟩ := by
  have h := message_handler_safe ⟨false, ⟨0⟩, ⟨[], 0⟩, ⟨[("a", 1)], none⟩, none, []⟩
  exact ⟨h.2.1 ⟨"bogus", ⟨1, false⟩, [], none, "hi", "ETHUSDT", "buy"⟩ (by decide), h.1⟩

end QuantumDashboard
